import Mathlib

/-!
Shallow embedding of the resource-reservation core of `alab_management`
(`sample_view/sample_view.py` and `lab_view.py`).

Modelling conventions:
* A MongoDB `ObjectId` is modelled as `Nat`.
* A collection is the list of its documents in insertion order: `find_one`
  is `List.find?` (first match), `update_one` rewrites the first matching
  document, `insert_one` appends, `count_documents` is the length of the
  filtered list.
* The anchored escaped-literal regex `^re.escape(pfx)` used on the `name`
  field is literal string-prefix matching, modelled on the character list
  of the name; the character-class regex `[$.]` used by the name validators
  is "some character of the name is '.' or '$'".
* Timestamp fields (`last_updated`, `created_at`) and payload-only fields
  (`description`, `tags`, `metadata`) never influence any branch of the
  embedded functions and are omitted from the documents.
* Python exceptions become `LabError` values.  An operation that performs at
  most one write after all its checks is `Except LabError _` (an error means
  the store is untouched); `add_sample_positions_to_db`, which writes inside
  its validation loop, instead returns the mutated-so-far state together
  with the error, because MongoDB has no transaction around the loop.
* The named advisory lock (`with self._lock():`) serialises the
  decide-and-commit section; the embedding is sequential, so the locked
  section is ordinary code.
-/

/-- Literal string-prefix test: the embedding of matching the `name` field
against the anchored regex `f"^\x7bre.escape(pfx)\x7d"`. -/
def strStartsWith (a p : String) : Bool := p.data.isPrefixOf a.data

/-- The embedding of `re.search(r"[$.]", nm) is not None`: some character of
the name is '.' or '$'. -/
def hasBadChar (nm : String) : Bool := nm.data.any (fun c => c = '.' || c = '$')

/-- A document of the `sample_positions` collection. -/
structure PosDoc where
  name : String
  task_id : Option Nat
  parent_device : Option String
deriving Repr, DecidableEq

/-- A document of the `samples` collection (`_id` is `id`). -/
structure SampleDoc where
  id : Nat
  name : String
  position : Option String
  task_id : Option Nat
deriving Repr, DecidableEq

/-- The two linked collections wrapped by `SampleView`. -/
structure LabState where
  positions : List PosDoc
  samples : List SampleDoc
deriving Repr, DecidableEq

/-- `SamplePositionStatus` enum of `sample_view.py`. -/
inductive SamplePositionStatus
  | EMPTY
  | OCCUPIED
  | LOCKED
deriving Repr, DecidableEq

/-- The distinct `raise` sites of the embedded functions. -/
inductive LabError
  | duplicatedPositions
  | notEnoughPositions (pfx : String)
  | invalidPosition (position : String)
  | cannotFindPrefix (pfx : String)
  | positionOccupied (position : String)
  | positionLockedByOtherTask (position : String)
  | badName (nm : String)
  | positionNotEmpty (position : String)
  | sampleNotFound (sample_id : Nat)
  | positionNotLockedByTask (position : String)
  | sampleNotOwnedByTask
deriving Repr, DecidableEq

/-- Decidable equality for `Except`, so that concrete runs of the fallible
operations can be checked by `decide`. -/
instance {ε α : Type} [DecidableEq ε] [DecidableEq α] : DecidableEq (Except ε α) := fun a b =>
  match a, b with
  | .error e, .error f =>
    if h : e = f then .isTrue (by rw [h]) else .isFalse (by intro hc; cases hc; exact h rfl)
  | .ok x, .ok y =>
    if h : x = y then .isTrue (by rw [h]) else .isFalse (by intro hc; cases hc; exact h rfl)
  | .error _, .ok _ => .isFalse (by intro hc; cases hc)
  | .ok _, .error _ => .isFalse (by intro hc; cases hc)

/-- Embeds `SampleView.get_sample_position`: `find_one({"name": position})`. -/
def get_sample_position (s : LabState) (position : String) : Option PosDoc :=
  s.positions.find? (fun pd => pd.name == position)

/-- Embeds `SampleView.get_sample_position_status`: unknown name raises; a sample
referencing the position wins (OCCUPIED with the sample's task id); else a
set owner field means LOCKED with that owner; else EMPTY with no task id. -/
def get_sample_position_status (s : LabState) (position : String) :
    Except LabError (SamplePositionStatus × Option Nat) :=
  match get_sample_position s position with
  | none => .error (.invalidPosition position)
  | some pd =>
    match s.samples.find? (fun sm => sm.position == some position) with
    | some sm => .ok (SamplePositionStatus.OCCUPIED, sm.task_id)
    | none =>
      if pd.task_id ≠ none then .ok (SamplePositionStatus.LOCKED, pd.task_id)
      else .ok (SamplePositionStatus.EMPTY, none)

/-- Embeds `SampleView.is_unoccupied_position`. -/
def is_unoccupied_position (s : LabState) (position : String) : Except LabError Bool :=
  match get_sample_position_status s position with
  | .error e => .error e
  | .ok (st, _) => .ok (decide (st ≠ SamplePositionStatus.OCCUPIED))

/-- An element of the list returned by `get_available_sample_position`:
the dict `\x7b"name": ..., "need_release": ...\x7d`. -/
structure AvailEntry where
  name : String
  need_release : Bool
deriving Repr, DecidableEq

/-- The for-loop of `get_available_sample_position`: for each document of the
filtered cursor, recompute the status and keep the position when it is EMPTY
or the resolver's task id equals the requester; `need_release` re-reads the
document by name and compares the stored owner with the requester.  The
`.ok _, none` branch is unreachable (the status call just found the
document); Python would crash subscripting `None` there. -/
def availLoop (s : LabState) (task_id : Nat) : List PosDoc → Except LabError (List AvailEntry)
  | [] => .ok []
  | pd :: rest =>
    match get_sample_position_status s pd.name, get_sample_position s pd.name with
    | .error e, _ => .error e
    | .ok _, none => .error (.invalidPosition pd.name)
    | .ok (st, cur), some pd2 =>
      match availLoop s task_id rest with
      | .error e => .error e
      | .ok tail =>
        if st = SamplePositionStatus.EMPTY ∨ cur = some task_id then
          .ok ({ name := pd.name, need_release := decide (pd2.task_id ≠ some task_id) } :: tail)
        else .ok tail

/-- Embeds `SampleView.get_available_sample_position`: raises when no position name
starts with the given prefix string; otherwise runs the loop over the
documents matching `name` starts-with the prefix AND owner in
`\x7bNone, task_id\x7d`. -/
def get_available_sample_position (s : LabState) (task_id : Nat) (pfx : String) :
    Except LabError (List AvailEntry) :=
  if (s.positions.find? (fun pd => strStartsWith pd.name pfx)).isNone then
    .error (.cannotFindPrefix pfx)
  else
    availLoop s task_id
      (s.positions.filter (fun pd =>
        strStartsWith pd.name pfx && (pd.task_id == none || pd.task_id == some task_id)))

/-- Embeds `SamplePositionRequest` (pydantic model): a position-name prefix string
(field `prefix` in the source, named `pfx` here) and a requested count
(`conint(ge=0)`, defaulting to 1 at the call sites). -/
structure SamplePositionRequest where
  pfx : String
  number : Nat
deriving Repr, DecidableEq

/-- Embeds `count_documents` over the positions whose name starts with the prefix. -/
def countMatches (s : LabState) (pfx : String) : Nat :=
  (s.positions.filter (fun pd => strStartsWith pd.name pfx)).length

/-- The capacity pre-check loop of `request_sample_positions`, run before the
named lock is taken: the first request whose total match count is below its
requested number raises. -/
def checkCapacity (s : LabState) : List SamplePositionRequest → Option LabError
  | [] => none
  | r :: rest =>
    if countMatches s r.pfx < r.number then some (.notEnoughPositions r.pfx)
    else checkCapacity s rest

/-- Python's `sorted(result, key=lambda t: int(t["need_release"]))`: a stable
ascending sort on a two-valued key, i.e. the `need_release = false` entries
in their original order followed by the `need_release = true` entries in
their original order. -/
def sortByNeedRelease (l : List AvailEntry) : List AvailEntry :=
  l.filter (fun e => !e.need_release) ++ l.filter (fun e => e.need_release)

/-- The body of `with self._lock():` in `request_sample_positions`: for each
request recompute availability; on `if not result or len(result) < number`
return `None` (contention, retryable); otherwise keep the first `number`
entries of the sorted candidates, keyed by the request's prefix. -/
def lockedSelection (s : LabState) (task_id : Nat) :
    List SamplePositionRequest → Except LabError (Option (List (String × List AvailEntry)))
  | [] => .ok (some [])
  | r :: rest =>
    match get_available_sample_position s task_id r.pfx with
    | .error e => .error e
    | .ok result =>
      if result.isEmpty ∨ result.length < r.number then .ok none
      else
        match lockedSelection s task_id rest with
        | .error e => .error e
        | .ok none => .ok none
        | .ok (some m) => .ok (some ((r.pfx, (sortByNeedRelease result).take r.number) :: m))

/-- `SampleView.request_sample_positions`: duplicate-prefix validation, then
the capacity pre-check (both before the lock), then the selection under the
named lock.  `.ok (some grant)` is a grant, `.ok none` is Python's `None`
(not currently satisfiable).  The function performs no write to either
collection: its body consists only of `count_documents` / `find` /
`find_one` queries, hence its state-free type. -/
def request_sample_positions (s : LabState) (task_id : Nat)
    (reqs : List SamplePositionRequest) :
    Except LabError (Option (List (String × List AvailEntry))) :=
  if reqs.length ≠ ((reqs.map (fun r => r.pfx)).dedup).length then
    .error .duplicatedPositions
  else
    match checkCapacity s reqs with
    | some e => .error e
    | none => lockedSelection s task_id reqs

/-- Embeds the `update_one` call that sets `task_id`: rewrite the owner
of the first document carrying the given name. -/
def setOwnerFirst : List PosDoc → String → Option Nat → List PosDoc
  | [], _, _ => []
  | pd :: rest, nm, ow =>
    if pd.name == nm then { pd with task_id := ow } :: rest
    else pd :: setOwnerFirst rest nm ow

/-- State after the single `update_one` on the positions collection. -/
def updatePosOwner (s : LabState) (position : String) (owner : Option Nat) : LabState :=
  { s with positions := setOwnerFirst s.positions position owner }

/-- Embeds `SampleView.lock_sample_position`: the guard compares the *resolver's*
task id (the occupying sample's when OCCUPIED, else the stored owner) with
the requester, then unconditionally writes the owner field. -/
def lock_sample_position (s : LabState) (task_id : Nat) (position : String) :
    Except LabError LabState :=
  match get_sample_position_status s position with
  | .error e => .error e
  | .ok (st, cur) =>
    if cur ≠ some task_id ∧ st = SamplePositionStatus.OCCUPIED then
      .error (.positionOccupied position)
    else if cur ≠ some task_id ∧ st = SamplePositionStatus.LOCKED then
      .error (.positionLockedByOtherTask position)
    else .ok (updatePosOwner s position (some task_id))

/-- Embeds `SampleView.release_sample_position`: unknown name raises, otherwise the
owner is cleared unconditionally. -/
def release_sample_position (s : LabState) (position : String) : Except LabError LabState :=
  if (get_sample_position s position).isNone then .error (.invalidPosition position)
  else .ok (updatePosOwner s position none)

/-- Fresh `_id` allocation by `insert_one` when the caller supplies no id. -/
def freshId (s : LabState) : Nat :=
  (s.samples.map (fun sm => sm.id)).foldr max 0 + 1

/-- The `_id` the inserted sample receives. -/
def newSampleId (s : LabState) (sample_id : Option Nat) : Nat :=
  match sample_id with
  | some i => i
  | none => freshId s

/-- The validation-then-insert tail of `create_sample` (everything after the
position-occupancy guard): reserved-character check on the name, then the
single `insert_one` with `task_id = None`.  The `isinstance(sample_id,
ObjectId)` check is vacuous here because every `Nat` models a valid id. -/
def createSampleInsert (s : LabState) (nm : String) (position : Option String)
    (sample_id : Option Nat) : Except LabError (Nat × LabState) :=
  if hasBadChar nm then .error (.badName nm)
  else
    .ok (newSampleId s sample_id,
      { s with samples := s.samples ++
          [{ id := newSampleId s sample_id, name := nm, position := position, task_id := none }] })

/-- Embeds `SampleView.create_sample`: when a destination is given it must not be
OCCUPIED (its owner field is never consulted), then the name is validated
and the document inserted. -/
def create_sample (s : LabState) (nm : String) (position : Option String)
    (sample_id : Option Nat) : Except LabError (Nat × LabState) :=
  match position with
  | some p =>
    match is_unoccupied_position s p with
    | .error e => .error e
    | .ok unocc =>
      if !unocc then .error (.positionNotEmpty p)
      else createSampleInsert s nm position sample_id
  | none => createSampleInsert s nm position sample_id

/-- Embeds the `update_one` call that rewrites a sample's `position`. -/
def updateSamplePosition : List SampleDoc → Nat → Option String → List SampleDoc
  | [], _, _ => []
  | sm :: rest, sid, pos =>
    if sm.id == sid then { sm with position := pos } :: rest
    else sm :: updateSamplePosition rest sid pos

/-- Embeds `SampleView.move_sample`: unknown sample raises; moving a sample onto its
current position returns early; a non-`None` destination must not be
OCCUPIED; then the single `update_one` rewrites the sample's position. -/
def SampleView.move_sample (s : LabState) (sample_id : Nat) (position : Option String) :
    Except LabError LabState :=
  match s.samples.find? (fun sm => sm.id == sample_id) with
  | none => .error (.sampleNotFound sample_id)
  | some sm =>
    if sm.position = position then .ok s
    else
      match position with
      | some p =>
        match is_unoccupied_position s p with
        | .error e => .error e
        | .ok unocc =>
          if !unocc then .error (.positionNotEmpty p)
          else .ok { s with samples := updateSamplePosition s.samples sample_id position }
      | none => .ok { s with samples := updateSamplePosition s.samples sample_id position }

/-- The sample-ownership check and the delegation of `LabView.move_sample`
(the part after the destination-lock check): `get_sample` raises on an
unknown id, a sample whose `task_id` differs from the caller's raises, and
otherwise `SampleView.move_sample` runs. -/
def LabView.moveOwned (s : LabState) (task_id : Nat) (sample_id : Nat)
    (position : Option String) : Except LabError LabState :=
  match s.samples.find? (fun sm => sm.id == sample_id) with
  | none => .error (.sampleNotFound sample_id)
  | some sm =>
    if sm.task_id ≠ some task_id then .error .sampleNotOwnedByTask
    else SampleView.move_sample s sample_id position

/-- Embeds `LabView.move_sample`: for a non-`None` destination, the second component
of `get_sample_position_status` (the resolver's task id) must equal the
caller's task id, else it raises; then the ownership check and delegation. -/
def LabView.move_sample (s : LabState) (task_id : Nat) (sample_id : Nat)
    (position : Option String) : Except LabError LabState :=
  match position with
  | some p =>
    match get_sample_position_status s p with
    | .error e => .error e
    | .ok (_, cur) =>
      if cur ≠ some task_id then .error (.positionNotLockedByTask p)
      else LabView.moveOwned s task_id sample_id position
  | none => LabView.moveOwned s task_id sample_id position

/-- Modelled from the spec: the `SamplePosition` dataclass lives in
`sample_view/sample.py`, which is not among the given sources; per the spec
a position template carries a hierarchical segment-separated name and a
multiplicity, with the separator `"/"` joining segments.  The payload-only
`description` field is omitted. -/
structure SamplePosition where
  name : String
  number : Nat
deriving Repr, DecidableEq

/-- Modelled from the spec: `SamplePosition.SEPARATOR`, the hierarchical
segment separator of position names. -/
def SEPARATOR : String := "/"

/-- The name generated for the `i`-th copy (0-based) of a position template
in `add_sample_positions_to_db`: `name/(i+1)` when the multiplicity is not
one, the bare name otherwise, prefixed by `parent/` when a parent device
name is given. -/
def positionEntryName (parent : Option String) (sp : SamplePosition) (i : Nat) : String :=
  let base := if sp.number ≠ 1 then sp.name ++ SEPARATOR ++ toString (i + 1) else sp.name
  match parent with
  | some d => d ++ SEPARATOR ++ base
  | none => base

/-- One iteration of the insert loop of `add_sample_positions_to_db`:
reserved-character validation of the generated name, then insertion unless a
document with that name already exists (idempotent registration). -/
def addOnePositionName (s : LabState) (parent : Option String) (nm : String) :
    LabState × Option LabError :=
  if hasBadChar nm then (s, some (.badName nm))
  else
    match get_sample_position s nm with
    | some _ => (s, none)
    | none =>
      ({ s with positions := s.positions ++ [{ name := nm, task_id := none, parent_device := parent }] },
       none)

/-- The doubly nested loop of `add_sample_positions_to_db`, threaded over the
pre-computed list of generated names (name generation reads no state, so
flattening the two loops first is faithful); an error aborts the remainder
but the writes already made persist (no transaction). -/
def addNamesLoop (parent : Option String) :
    LabState → List String → LabState × Option LabError
  | s, [] => (s, none)
  | s, nm :: rest =>
    match addOnePositionName s parent nm with
    | (s', some e) => (s', some e)
    | (s', none) => addNamesLoop parent s' rest

/-- The generated names of a batch, in loop order. -/
def generatedNames (parent : Option String) (sps : List SamplePosition) : List String :=
  sps.flatMap (fun sp => (List.range sp.number).map (fun i => positionEntryName parent sp i))

/-- Embeds `SampleView.add_sample_positions_to_db`. -/
def add_sample_positions_to_db (s : LabState) (sps : List SamplePosition)
    (parent : Option String) : LabState × Option LabError :=
  addNamesLoop parent s (generatedNames parent sps)

/-- Modelled from the spec: `release(grant)` — the release path of a grant
runs through `ResourceRequester.release_resources` and the task manager,
which are not among the given sources; per the spec it unconditionally
clears the owner of every position in the grant. -/
def release_grant (s : LabState) (grant : List String) : LabState :=
  grant.foldl (fun st p => updatePosOwner st p none) s

/-- Outcome of the caller's body inside `with lab_view.request_resources(...)`. -/
inductive BodyOutcome
  | normal
  | raises
deriving Repr, DecidableEq

/-- Embeds the scope of `LabView.request_resources`, a `contextlib.contextmanager` generator in
which `yield devices, sample_positions` is followed directly by
`release_resources(request_id)` with no `try/finally` around the yield: when
the caller's body raises, the exception is re-raised at the yield point and
the release line is never reached; only normal completion executes it.  The
external effects of the entry path (task-status updates, device wrappers)
touch neither collection and are not modelled. -/
def request_resources_scope (s : LabState) (grant : List String) (body : BodyOutcome) : LabState :=
  match body with
  | BodyOutcome.normal => release_grant s grant
  | BodyOutcome.raises => s

/-- Locking each granted position in turn: what the resource manager does
with a grant returned by `request_sample_positions`; the commit is *not*
part of `request_sample_positions` itself. -/
def lockGrantPositions (t : Nat) : LabState → List String → Except LabError LabState
  | s, [] => .ok s
  | s, p :: rest =>
    match lock_sample_position s t p with
    | .error e => .error e
    | .ok s' => lockGrantPositions t s' rest

/-! Concrete store states used by the counterexamples and witnesses -/

/-- One position locked by task 1 (a committed grant), no samples. -/
def stC1 : LabState :=
  { positions := [{ name := "furnace/slot/1", task_id := some 1, parent_device := none }],
    samples := [] }

/-- One free position matching the requested `oven/tray` name stem. -/
def stC2 : LabState :=
  { positions := [{ name := "oven/tray/1", task_id := none, parent_device := none }],
    samples := [] }

/-- A position whose own owner field is task 9 while a sample of task 7
occupies it: the sample reference must win in the resolver. -/
def stC3 : LabState :=
  { positions := [{ name := "slot", task_id := some 9, parent_device := none }],
    samples := [{ id := 1, name := "s", position := some "slot", task_id := some 7 }] }

/-- One position locked by task 99: populated but currently unavailable. -/
def stC4 : LabState :=
  { positions := [{ name := "oven/tray/1", task_id := some 99, parent_device := none }],
    samples := [] }

/-- A position with no owner, occupied by a sample of task 7. -/
def stC5 : LabState :=
  { positions := [{ name := "slot", task_id := none, parent_device := none }],
    samples := [{ id := 1, name := "s", position := some "slot", task_id := some 7 }] }

/-- A position already locked by task 4, with no occupying sample. -/
def stC5w : LabState :=
  { positions := [{ name := "slot", task_id := some 4, parent_device := none }],
    samples := [] }

/-- Four free `oven/tray` positions (the spec's re-acquisition scenario). -/
def stC6 : LabState :=
  { positions := [{ name := "oven/tray/1", task_id := none, parent_device := none },
                  { name := "oven/tray/2", task_id := none, parent_device := none },
                  { name := "oven/tray/3", task_id := none, parent_device := none },
                  { name := "oven/tray/4", task_id := none, parent_device := none }],
    samples := [] }

/-- The same four positions after task 1 committed ownership of each. -/
def stC6L : LabState :=
  { positions := [{ name := "oven/tray/1", task_id := some 1, parent_device := none },
                  { name := "oven/tray/2", task_id := some 1, parent_device := none },
                  { name := "oven/tray/3", task_id := some 1, parent_device := none },
                  { name := "oven/tray/4", task_id := some 1, parent_device := none }],
    samples := [] }

/-- A sample of task 3 sitting on `slot`, which has no owner of its own. -/
def stC7 : LabState :=
  { positions := [{ name := "slot", task_id := none, parent_device := none }],
    samples := [{ id := 1, name := "s", position := some "slot", task_id := some 3 }] }

/-- An empty store. -/
def stEmpty : LabState := { positions := [], samples := [] }

/-- One position whose name does not start with `zzz`. -/
def stC9 : LabState :=
  { positions := [{ name := "x/1", task_id := none, parent_device := none }],
    samples := [] }

/-- A position locked by task 99 with no occupying sample. -/
def stC10 : LabState :=
  { positions := [{ name := "slot", task_id := some 99, parent_device := none }],
    samples := [] }

/-! Helper lemmas -/

/-- An `update_one` writing the value the first matching document already
holds changes nothing. -/
theorem setOwnerFirst_noop (l : List PosDoc) (nm : String) (ow : Option Nat)
    (h : ∀ pd, l.find? (fun q => q.name == nm) = some pd → pd.task_id = ow) :
    setOwnerFirst l nm ow = l := by
  induction l with
  | nil => rfl
  | cons pd rest ih =>
    by_cases hname : (pd.name == nm) = true
    · have heq : pd.task_id = ow := h pd (by rw [List.find?_cons_of_pos rest hname])
      obtain ⟨n, tid, par⟩ := pd
      simp only [setOwnerFirst, hname, if_true]
      simp_all
    · have htail := ih (fun q hq => h q (by rw [List.find?_cons_of_neg rest hname]; exact hq))
      simp [setOwnerFirst, hname, htail]

/-! Claim C1 -/

/-- C1: the scoped acquisition of `LabView.request_resources` does NOT release
on every exit path: when the caller's body raises, the generator has no
`try/finally` around its `yield`, so `release_resources` is skipped and the
granted position stays locked; only normal completion clears the owner. -/
theorem C1_release_skipped_on_error :
    request_resources_scope stC1 ["furnace/slot/1"] BodyOutcome.raises = stC1 ∧
    (get_sample_position stC1 "furnace/slot/1").map PosDoc.task_id = some (some 1) ∧
    (get_sample_position (request_resources_scope stC1 ["furnace/slot/1"] BodyOutcome.normal)
        "furnace/slot/1").map PosDoc.task_id = some none := by decide

/-! Claim C3 -/

/-- C3: `get_sample_position_status` raises on an unknown name; otherwise a
sample referencing the position wins (OCCUPIED with the sample's task id,
irrespective of the position's own owner field); otherwise a set owner field
gives LOCKED with that owner; otherwise EMPTY with no task id. -/
theorem C3_status_resolution (s : LabState) (p : String) :
    (get_sample_position s p = none →
      get_sample_position_status s p = .error (.invalidPosition p)) ∧
    (∀ pd, get_sample_position s p = some pd →
      ((∀ sm, s.samples.find? (fun q => q.position == some p) = some sm →
          get_sample_position_status s p = .ok (SamplePositionStatus.OCCUPIED, sm.task_id)) ∧
       (s.samples.find? (fun q => q.position == some p) = none →
          pd.task_id ≠ none →
          get_sample_position_status s p = .ok (SamplePositionStatus.LOCKED, pd.task_id)) ∧
       (s.samples.find? (fun q => q.position == some p) = none →
          pd.task_id = none →
          get_sample_position_status s p = .ok (SamplePositionStatus.EMPTY, none)))) := by
  refine ⟨fun h => by simp [get_sample_position_status, h], fun pd hpd => ⟨?_, ?_, ?_⟩⟩
  · intro sm hsm; simp [get_sample_position_status, hpd, hsm]
  · intro hnone hne; simp [get_sample_position_status, hpd, hnone, hne]
  · intro hnone heq; simp [get_sample_position_status, hpd, hnone, heq]

/-- C3 witness: a position owned by task 9 but occupied by a sample of task 7
resolves to OCCUPIED with task 7. -/
theorem C3_witness :
    get_sample_position_status stC3 "slot" = .ok (SamplePositionStatus.OCCUPIED, some 7) := by
  have h := (C3_status_resolution stC3 "slot").2
    { name := "slot", task_id := some 9, parent_device := none } (by decide)
  exact h.1 { id := 1, name := "s", position := some "slot", task_id := some 7 } (by decide)

/-! Claim C5 -/

/-- C5 counterexample: `slot` is OCCUPIED (by a sample of task 7) and its
stored owner is `none` (not task 7), so the claim demands an OwnershipError;
the code instead succeeds and writes the owner, because its guard compares
the resolver's task id (the occupying sample's) with the requester. -/
theorem C5_counterexample :
    get_sample_position_status stC5 "slot" = .ok (SamplePositionStatus.OCCUPIED, some 7) ∧
    lock_sample_position stC5 7 "slot"
      = .ok { positions := [{ name := "slot", task_id := some 7, parent_device := none }],
              samples := [{ id := 1, name := "s", position := some "slot", task_id := some 7 }] } := by
  decide

/-- C5 amended: `lock_sample_position` keys its decision on the task id
resolved by the occupancy resolver (the occupying sample's when OCCUPIED,
else the stored owner): when that id equals the requester the lock proceeds
and writes the owner (a no-op when the stored owner already equals the
requester); when it differs, OCCUPIED and LOCKED positions raise; an EMPTY
position gets its owner set. -/
theorem C5_lock_resolution (s : LabState) (t : Nat) (p : String)
    (st : SamplePositionStatus) (cur : Option Nat)
    (h : get_sample_position_status s p = .ok (st, cur)) :
    (cur = some t → lock_sample_position s t p = .ok (updatePosOwner s p (some t))) ∧
    (cur ≠ some t → st = SamplePositionStatus.OCCUPIED →
      lock_sample_position s t p = .error (.positionOccupied p)) ∧
    (cur ≠ some t → st = SamplePositionStatus.LOCKED →
      lock_sample_position s t p = .error (.positionLockedByOtherTask p)) ∧
    (cur ≠ some t → st = SamplePositionStatus.EMPTY →
      lock_sample_position s t p = .ok (updatePosOwner s p (some t))) ∧
    (cur = some t → ∀ pd, get_sample_position s p = some pd → pd.task_id = some t →
      lock_sample_position s t p = .ok s) := by
  refine ⟨?_, ?_, ?_, ?_, ?_⟩
  · intro hcur; simp [lock_sample_position, h, hcur]
  · intro hcur hst; simp [lock_sample_position, h, hcur, hst]
  · intro hcur hst; subst hst; simp [lock_sample_position, h, hcur]
  · intro hcur hst; subst hst; simp [lock_sample_position, h, hcur]
  · intro hcur pd hpd htid
    have h1 : lock_sample_position s t p = .ok (updatePosOwner s p (some t)) := by
      simp [lock_sample_position, h, hcur]
    have hfix : updatePosOwner s p (some t) = s := by
      have hfirst : setOwnerFirst s.positions p (some t) = s.positions := by
        apply setOwnerFirst_noop
        intro q hq
        rw [get_sample_position] at hpd
        rw [hpd] at hq
        cases hq
        exact htid
      simp [updatePosOwner, hfirst]
    rw [h1, hfix]

/-- C5 witness: re-locking a position already locked by the same task is a
no-op, via the amended theorem at a concrete store. -/
theorem C5_witness : lock_sample_position stC5w 4 "slot" = .ok stC5w :=
  (C5_lock_resolution stC5w 4 "slot" SamplePositionStatus.LOCKED (some 4)
    (by decide)).2.2.2.2 rfl
    { name := "slot", task_id := some 4, parent_device := none } (by decide) rfl

/-! Claim C6 -/

/-- C6 counterexample: over four EMPTY `oven/tray` positions the first
reserve by task 1 succeeds, and — because `request_sample_positions`
commits no ownership — re-issuing the identical request (the store is
unchanged, the call performs no write) again returns every grant entry with
`need_release = true`, not `false` as the claim demands. -/
theorem C6_counterexample :
    request_sample_positions stC6 1 [{ pfx := "oven/tray", number := 4 }]
      = .ok (some [("oven/tray",
          [{ name := "oven/tray/1", need_release := true },
           { name := "oven/tray/2", need_release := true },
           { name := "oven/tray/3", need_release := true },
           { name := "oven/tray/4", need_release := true }])]) ∧
    request_sample_positions stC6 1 [{ pfx := "oven/tray", number := 4 }]
      ≠ .ok (some [("oven/tray",
          [{ name := "oven/tray/1", need_release := false },
           { name := "oven/tray/2", need_release := false },
           { name := "oven/tray/3", need_release := false },
           { name := "oven/tray/4", need_release := false }])]) := by decide

/-- C6 amended: the reserve of task 1 over the four EMPTY positions grants
exactly those four (with `need_release = true`); after the task's ownership
has been committed (locking each granted position, as the resource manager
does), the identical request is granted exactly the same four positions,
all with `need_release = false`. -/
theorem C6_reacquisition_after_commit :
    request_sample_positions stC6 1 [{ pfx := "oven/tray", number := 4 }]
      = .ok (some [("oven/tray",
          [{ name := "oven/tray/1", need_release := true },
           { name := "oven/tray/2", need_release := true },
           { name := "oven/tray/3", need_release := true },
           { name := "oven/tray/4", need_release := true }])]) ∧
    lockGrantPositions 1 stC6 ["oven/tray/1", "oven/tray/2", "oven/tray/3", "oven/tray/4"]
      = .ok stC6L ∧
    request_sample_positions stC6L 1 [{ pfx := "oven/tray", number := 4 }]
      = .ok (some [("oven/tray",
          [{ name := "oven/tray/1", need_release := false },
           { name := "oven/tray/2", need_release := false },
           { name := "oven/tray/3", need_release := false },
           { name := "oven/tray/4", need_release := false }])]) := by decide

/-! Claim C7 -/

/-- C7 counterexample: the destination `slot` is OCCUPIED (by the moved
sample itself), yet `LabView.move_sample` succeeds as a no-op instead of
raising the OwnershipError the claim demands for an occupied destination. -/
theorem C7_counterexample :
    get_sample_position_status stC7 "slot" = .ok (SamplePositionStatus.OCCUPIED, some 3) ∧
    LabView.move_sample stC7 3 1 (some "slot") = .ok stC7 := by decide

/-- C7 amended: `LabView.move_sample` to a non-`None` destination raises
unless the resolver's task id on the destination equals the caller's; then
a sample not owned by the caller raises; a sample already at the destination
is a no-op success even though the destination is occupied (by that sample);
otherwise an occupied destination raises and an unoccupied one gets the
ledger update. -/
theorem C7_move_resolution (s : LabState) (t sid : Nat) (p : String)
    (st : SamplePositionStatus) (cur : Option Nat)
    (h : get_sample_position_status s p = .ok (st, cur)) :
    (cur ≠ some t →
      LabView.move_sample s t sid (some p) = .error (.positionNotLockedByTask p)) ∧
    (∀ sm, s.samples.find? (fun q => q.id == sid) = some sm →
      (cur = some t → sm.task_id ≠ some t →
        LabView.move_sample s t sid (some p) = .error .sampleNotOwnedByTask) ∧
      (cur = some t → sm.task_id = some t → sm.position = some p →
        LabView.move_sample s t sid (some p) = .ok s) ∧
      (cur = some t → sm.task_id = some t → sm.position ≠ some p →
        st = SamplePositionStatus.OCCUPIED →
        LabView.move_sample s t sid (some p) = .error (.positionNotEmpty p)) ∧
      (cur = some t → sm.task_id = some t → sm.position ≠ some p →
        st ≠ SamplePositionStatus.OCCUPIED →
        LabView.move_sample s t sid (some p)
          = .ok { s with samples := updateSamplePosition s.samples sid (some p) })) := by
  constructor
  · intro hcur; simp [LabView.move_sample, h, hcur]
  · intro sm hsm
    refine ⟨?_, ?_, ?_, ?_⟩
    · intro hcur howner
      simp [LabView.move_sample, h, hcur, LabView.moveOwned, hsm, howner]
    · intro hcur howner hpos
      simp [LabView.move_sample, h, hcur, LabView.moveOwned, hsm, howner,
            SampleView.move_sample, hpos]
    · intro hcur howner hpos hst
      simp [LabView.move_sample, h, hcur, LabView.moveOwned, hsm, howner,
            SampleView.move_sample, hpos, is_unoccupied_position, hst]
    · intro hcur howner hpos hst
      simp [LabView.move_sample, h, hcur, LabView.moveOwned, hsm, howner,
            SampleView.move_sample, hpos, is_unoccupied_position, hst]

/-- C7 witness: the no-op branch of the amended theorem at the concrete
store `stC7`. -/
theorem C7_witness : LabView.move_sample stC7 3 1 (some "slot") = .ok stC7 :=
  (((C7_move_resolution stC7 3 1 "slot" SamplePositionStatus.OCCUPIED (some 3)
      (by decide)).2
    { id := 1, name := "s", position := some "slot", task_id := some 3 }
      (by decide)).2.1) rfl rfl rfl

/-! Claim C2 -/

/-- Every entry produced by the availability loop names a document of the
traversed cursor. -/
theorem availLoop_mem (s : LabState) (t : Nat) (l : List PosDoc)
    (out : List AvailEntry) (hok : availLoop s t l = .ok out) :
    ∀ e ∈ out, ∃ pd, pd ∈ l ∧ pd.name = e.name := by
  induction l generalizing out with
  | nil =>
    simp only [availLoop] at hok
    cases hok
    simp
  | cons pd rest ih =>
    simp only [availLoop] at hok
    cases hst : get_sample_position_status s pd.name with
    | error e => rw [hst] at hok; cases hok
    | ok stcur =>
      cases hpd2 : get_sample_position s pd.name with
      | none => rw [hst, hpd2] at hok; cases hok
      | some pd2 =>
        obtain ⟨st, cur⟩ := stcur
        rw [hst, hpd2] at hok
        cases hrec : availLoop s t rest with
        | error e => rw [hrec] at hok; cases hok
        | ok tail =>
          rw [hrec] at hok
          dsimp only at hok
          by_cases hcond : st = SamplePositionStatus.EMPTY ∨ cur = some t
          · rw [if_pos hcond] at hok
            cases hok
            intro e he
            rcases List.mem_cons.mp he with he | he
            · exact ⟨pd, List.mem_cons_self pd rest, by subst he; rfl⟩
            · obtain ⟨pd', h1, h2⟩ := ih tail hrec e he
              exact ⟨pd', List.mem_cons_of_mem pd h1, h2⟩
          · rw [if_neg hcond] at hok
            cases hok
            intro e he
            obtain ⟨pd', h1, h2⟩ := ih out hrec e he
            exact ⟨pd', List.mem_cons_of_mem pd h1, h2⟩

/-- Every entry returned by `get_available_sample_position` names a stored
position whose owner is unset or already the requesting task. -/
theorem get_avail_mem (s : LabState) (t : Nat) (pfx : String)
    (res : List AvailEntry) (hok : get_available_sample_position s t pfx = .ok res) :
    ∀ e ∈ res, ∃ pd, pd ∈ s.positions ∧ pd.name = e.name ∧
      (pd.task_id = none ∨ pd.task_id = some t) := by
  rw [get_available_sample_position] at hok
  by_cases hfind : (s.positions.find? (fun pd => strStartsWith pd.name pfx)).isNone
  · rw [if_pos hfind] at hok; cases hok
  · rw [if_neg hfind] at hok
    intro e he
    obtain ⟨pd, hmem, hname⟩ := availLoop_mem s t _ res hok e he
    have hsplit := List.mem_filter.mp hmem
    refine ⟨pd, hsplit.1, hname, ?_⟩
    have hcond := hsplit.2
    simp only [Bool.and_eq_true, Bool.or_eq_true, beq_iff_eq] at hcond
    exact hcond.2

/-- An entry of the first `n` of the sorted candidates is a candidate. -/
theorem mem_of_mem_sort_take (result : List AvailEntry) (n : Nat) (e : AvailEntry)
    (he : e ∈ (sortByNeedRelease result).take n) : e ∈ result := by
  have h1 : e ∈ sortByNeedRelease result := List.take_subset n _ he
  rcases List.mem_append.mp h1 with h | h
  · exact (List.mem_filter.mp h).1
  · exact (List.mem_filter.mp h).1

/-- Every position named in a grant assembled under the lock is stored with
owner unset or equal to the requesting task. -/
theorem lockedSelection_mem (s : LabState) (t : Nat) (reqs : List SamplePositionRequest)
    (grant : List (String × List AvailEntry))
    (hok : lockedSelection s t reqs = .ok (some grant)) :
    ∀ pr ∈ grant, ∀ e ∈ pr.2, ∃ pd, pd ∈ s.positions ∧ pd.name = e.name ∧
      (pd.task_id = none ∨ pd.task_id = some t) := by
  induction reqs generalizing grant with
  | nil =>
    simp only [lockedSelection] at hok
    cases hok
    simp
  | cons r rest ih =>
    simp only [lockedSelection] at hok
    cases ha : get_available_sample_position s t r.pfx with
    | error e => rw [ha] at hok; cases hok
    | ok result =>
      rw [ha] at hok
      dsimp only at hok
      by_cases hc : result.isEmpty ∨ result.length < r.number
      · rw [if_pos hc] at hok; cases hok
      · rw [if_neg hc] at hok
        cases hrec : lockedSelection s t rest with
        | error e => rw [hrec] at hok; cases hok
        | ok orest =>
          rw [hrec] at hok
          cases orest with
          | none => cases hok
          | some m =>
            cases hok
            intro pr hpr e he
            rcases List.mem_cons.mp hpr with hpr | hpr
            · subst hpr
              have hres : e ∈ result := mem_of_mem_sort_take result r.number e he
              exact get_avail_mem s t r.pfx result ha e hres
            · exact ih m hrec pr hpr e he

/-- C2 counterexample: the reserve succeeds — the grant lists
`oven/tray/1` — yet the stored document's `task_id` is `none`, not the
requesting task 1: `request_sample_positions` issues no write (its body is
only queries), so no owner is set at return time. -/
theorem C2_counterexample :
    request_sample_positions stC2 1 [{ pfx := "oven/tray", number := 1 }]
      = .ok (some [("oven/tray", [{ name := "oven/tray/1", need_release := true }])]) ∧
    (get_sample_position stC2 "oven/tray/1").map PosDoc.task_id = some none := by decide

/-- C2 amended: `request_sample_positions` commits no ownership — it is a
pure query — and every position named in a returned grant is, at return
time, stored with owner unset or already the requesting task (the commit is
performed afterwards by the caller, position by position). -/
theorem C2_reserve_selects_available (s : LabState) (t : Nat)
    (reqs : List SamplePositionRequest) (grant : List (String × List AvailEntry))
    (hok : request_sample_positions s t reqs = .ok (some grant)) :
    ∀ pr ∈ grant, ∀ e ∈ pr.2, ∃ pd, pd ∈ s.positions ∧ pd.name = e.name ∧
      (pd.task_id = none ∨ pd.task_id = some t) := by
  rw [request_sample_positions] at hok
  by_cases hdup : reqs.length ≠ ((reqs.map (fun r => r.pfx)).dedup).length
  · rw [if_pos hdup] at hok; cases hok
  · rw [if_neg hdup] at hok
    cases hcap : checkCapacity s reqs with
    | some e => rw [hcap] at hok; cases hok
    | none =>
      rw [hcap] at hok
      exact lockedSelection_mem s t reqs grant hok

/-- C2 witness: the amended theorem applied to the concrete grant of
`stC2`. -/
theorem C2_witness :
    ∃ pd, pd ∈ stC2.positions ∧ pd.name = "oven/tray/1" ∧
      (pd.task_id = none ∨ pd.task_id = some 1) :=
  C2_reserve_selects_available stC2 1 [{ pfx := "oven/tray", number := 1 }]
    [("oven/tray", [{ name := "oven/tray/1", need_release := true }])] (by decide)
    ("oven/tray", [{ name := "oven/tray/1", need_release := true }]) (by decide)
    { name := "oven/tray/1", need_release := true } (by decide)

/-! Claim C4 -/

/-- When some request's total match count falls short, the capacity pre-check
reports a capacity error naming one such prefix. -/
theorem checkCapacity_short (s : LabState) (reqs : List SamplePositionRequest)
    (hshort : ∃ r ∈ reqs, countMatches s r.pfx < r.number) :
    ∃ pfx, checkCapacity s reqs = some (.notEnoughPositions pfx) ∧
      ∃ r', r' ∈ reqs ∧ r'.pfx = pfx ∧ countMatches s r'.pfx < r'.number := by
  induction reqs with
  | nil => simp at hshort
  | cons r rest ih =>
    by_cases hr : countMatches s r.pfx < r.number
    · exact ⟨r.pfx, by simp [checkCapacity, hr], r, List.mem_cons_self r rest, rfl, hr⟩
    · have hrest : ∃ r' ∈ rest, countMatches s r'.pfx < r'.number := by
        obtain ⟨r', hr', hlen⟩ := hshort
        rcases List.mem_cons.mp hr' with heq | hmem
        · subst heq; exact absurd hlen hr
        · exact ⟨r', hmem, hlen⟩
      obtain ⟨pfx, hc, r', hm, he, hl⟩ := ih hrest
      exact ⟨pfx, by simp [checkCapacity, hr, hc], r', List.mem_cons_of_mem r hm, he, hl⟩

/-- When every request's total match count suffices, the capacity pre-check
passes. -/
theorem checkCapacity_enough (s : LabState) (reqs : List SamplePositionRequest)
    (h : ∀ r ∈ reqs, r.number ≤ countMatches s r.pfx) :
    checkCapacity s reqs = none := by
  induction reqs with
  | nil => rfl
  | cons r rest ih =>
    have hr : ¬ countMatches s r.pfx < r.number :=
      Nat.not_lt.mpr (h r (List.mem_cons_self r rest))
    simp [checkCapacity, hr, ih (fun q hq => h q (List.mem_cons_of_mem r hq))]

/-- The availability loop cannot raise over documents of the collection. -/
theorem availLoop_ok (s : LabState) (t : Nat) (l : List PosDoc)
    (hmem : ∀ pd ∈ l, (get_sample_position s pd.name).isSome) :
    ∃ out, availLoop s t l = .ok out := by
  induction l with
  | nil => exact ⟨[], rfl⟩
  | cons pd rest ih =>
    obtain ⟨pd2, hpd2⟩ := Option.isSome_iff_exists.mp (hmem pd (List.mem_cons_self pd rest))
    have hst : ∃ stcur, get_sample_position_status s pd.name = .ok stcur := by
      rw [get_sample_position_status, hpd2]
      cases s.samples.find? (fun sm => sm.position == some pd.name) with
      | none =>
        by_cases h : pd2.task_id ≠ none
        · exact ⟨(SamplePositionStatus.LOCKED, pd2.task_id), by simp [h]⟩
        · exact ⟨(SamplePositionStatus.EMPTY, none), by simp [h]⟩
      | some sm => exact ⟨(SamplePositionStatus.OCCUPIED, sm.task_id), rfl⟩
    obtain ⟨⟨st, cur⟩, hst⟩ := hst
    obtain ⟨tail, htail⟩ := ih (fun q hq => hmem q (List.mem_cons_of_mem pd hq))
    by_cases hcond : st = SamplePositionStatus.EMPTY ∨ cur = some t
    · exact ⟨_, by simp only [availLoop, hst, hpd2, htail]; rw [if_pos hcond]⟩
    · exact ⟨tail, by simp only [availLoop, hst, hpd2, htail]; rw [if_neg hcond]⟩

/-- When at least one stored position name starts with the prefix, the
candidate query returns (it cannot raise). -/
theorem get_avail_ok (s : LabState) (t : Nat) (pfx : String)
    (hex : ∃ pd ∈ s.positions, strStartsWith pd.name pfx = true) :
    ∃ res, get_available_sample_position s t pfx = .ok res := by
  have hfind : (s.positions.find? (fun pd => strStartsWith pd.name pfx)).isSome := by
    rw [List.find?_isSome]
    obtain ⟨pd, hm, hs⟩ := hex
    exact ⟨pd, hm, hs⟩
  have hmem : ∀ pd ∈ s.positions.filter (fun pd =>
      strStartsWith pd.name pfx && (pd.task_id == none || pd.task_id == some t)),
      (get_sample_position s pd.name).isSome := by
    intro pd hpd
    have h1 := (List.mem_filter.mp hpd).1
    rw [get_sample_position, List.find?_isSome]
    exact ⟨pd, h1, by simp⟩
  obtain ⟨out, hout⟩ := availLoop_ok s t _ hmem
  refine ⟨out, ?_⟩
  rw [get_available_sample_position, if_neg ?_]
  · exact hout
  · rw [Option.isNone_iff_eq_none]
    intro hn
    rw [hn] at hfind
    exact absurd hfind (by simp)

/-- Under the lock, when every prefix matches some stored position and some
request's currently available candidates fall short of its count, the
selection returns `None` (no grant, no error). -/
theorem lockedSelection_unsat (s : LabState) (t : Nat) (reqs : List SamplePositionRequest)
    (hall : ∀ r ∈ reqs, ∃ pd ∈ s.positions, strStartsWith pd.name r.pfx = true)
    (hfail : ∃ r ∈ reqs, ∃ res, get_available_sample_position s t r.pfx = .ok res ∧
        res.length < r.number) :
    lockedSelection s t reqs = .ok none := by
  induction reqs with
  | nil => simp at hfail
  | cons r rest ih =>
    obtain ⟨res0, hres0⟩ := get_avail_ok s t r.pfx (hall r (List.mem_cons_self r rest))
    by_cases hc : res0.isEmpty ∨ res0.length < r.number
    · simp only [lockedSelection, hres0]; rw [if_pos hc]
    · have hrest : ∃ r' ∈ rest, ∃ res, get_available_sample_position s t r'.pfx = .ok res ∧
          res.length < r'.number := by
        obtain ⟨r', hr', res, hres, hlen⟩ := hfail
        rcases List.mem_cons.mp hr' with heq | hmem
        · subst heq
          rw [hres0] at hres
          cases hres
          exact absurd (Or.inr hlen) hc
        · exact ⟨r', hmem, res, hres, hlen⟩
      have htail := ih (fun q hq => hall q (List.mem_cons_of_mem r hq)) hrest
      simp only [lockedSelection, hres0]; rw [if_neg hc, htail]

/-- C4: `request_sample_positions` (i) raises the duplicate-prefix
ValidationError when the request list repeats a prefix; (ii) under distinct
prefixes, raises the capacity error — produced by the pre-check that runs
before the lock is taken, hence never queued — naming a prefix whose total
match count is below its requested number, whenever some request is
structurally unsatisfiable; (iii) when capacity suffices and every prefix
matches some stored position but some request's currently available
candidates fall short, returns `None` (Unsatisfiable) — and, the function
being write-free, no position's owner changes on any of these paths. -/
theorem C4_request_failure_modes (s : LabState) (t : Nat)
    (reqs : List SamplePositionRequest) :
    (reqs.length ≠ ((reqs.map (fun r => r.pfx)).dedup).length →
      request_sample_positions s t reqs = .error .duplicatedPositions) ∧
    (reqs.length = ((reqs.map (fun r => r.pfx)).dedup).length →
      (∃ r ∈ reqs, countMatches s r.pfx < r.number) →
      ∃ pfx, request_sample_positions s t reqs = .error (.notEnoughPositions pfx) ∧
        ∃ r', r' ∈ reqs ∧ r'.pfx = pfx ∧ countMatches s r'.pfx < r'.number) ∧
    (reqs.length = ((reqs.map (fun r => r.pfx)).dedup).length →
      (∀ r ∈ reqs, r.number ≤ countMatches s r.pfx) →
      (∀ r ∈ reqs, ∃ pd ∈ s.positions, strStartsWith pd.name r.pfx = true) →
      (∃ r ∈ reqs, ∃ res, get_available_sample_position s t r.pfx = .ok res ∧
          res.length < r.number) →
      request_sample_positions s t reqs = .ok none) := by
  refine ⟨?_, ?_, ?_⟩
  · intro hdup; rw [request_sample_positions, if_pos hdup]
  · intro hdup hshort
    obtain ⟨pfx, hc, hr⟩ := checkCapacity_short s reqs hshort
    exact ⟨pfx, by rw [request_sample_positions, if_neg (by simp [hdup]), hc], hr⟩
  · intro hdup henough hall hfail
    rw [request_sample_positions, if_neg (by simp [hdup]),
        checkCapacity_enough s reqs henough]
    exact lockedSelection_unsat s t reqs hall hfail

/-- C4 witness: the three failure modes at concrete stores — a duplicated
prefix, a request for two positions where only one exists, and a request
whose single matching position is locked by another task. -/
theorem C4_witness :
    request_sample_positions stC4 1
      [{ pfx := "oven/tray", number := 1 }, { pfx := "oven/tray", number := 1 }]
      = .error .duplicatedPositions ∧
    (∃ pfx, request_sample_positions stC4 1 [{ pfx := "oven/tray", number := 2 }]
        = .error (.notEnoughPositions pfx) ∧
      ∃ r', r' ∈ [({ pfx := "oven/tray", number := 2 } : SamplePositionRequest)] ∧
        r'.pfx = pfx ∧ countMatches stC4 r'.pfx < r'.number) ∧
    request_sample_positions stC4 1 [{ pfx := "oven/tray", number := 1 }] = .ok none := by
  refine ⟨?_, ?_, ?_⟩
  · exact (C4_request_failure_modes stC4 1 _).1 (by decide)
  · refine (C4_request_failure_modes stC4 1 _).2.1 (by decide) ?_
    exact ⟨{ pfx := "oven/tray", number := 2 }, by decide, by decide⟩
  · refine (C4_request_failure_modes stC4 1 _).2.2 (by decide)
      (by intro r hr; fin_cases hr; decide)
      (by intro r hr; fin_cases hr
          exact ⟨{ name := "oven/tray/1", task_id := some 99, parent_device := none },
                 by decide, by decide⟩) ?_
    exact ⟨{ pfx := "oven/tray", number := 1 }, by decide, [],
           by decide, by decide⟩

/-! Claim C8 -/

/-- The reserved-character test distributes over string concatenation. -/
theorem hasBadChar_append (a b : String) :
    hasBadChar (a ++ b) = (hasBadChar a || hasBadChar b) := by
  simp [hasBadChar, String.data_append, List.any_append]

/-- A template name containing a reserved character makes every generated
entry name contain one. -/
theorem positionEntryName_bad (parent : Option String) (sp : SamplePosition) (i : Nat)
    (h : hasBadChar sp.name = true) :
    hasBadChar (positionEntryName parent sp i) = true := by
  rw [positionEntryName.eq_def]
  cases parent with
  | none =>
    by_cases hn : sp.number ≠ 1 <;> simp [hn, hasBadChar_append, h]
  | some d =>
    by_cases hn : sp.number ≠ 1 <;> simp [hn, hasBadChar_append, h]

/-- C8 amended: the reserved-character validation runs before the write it
guards, per inserted document.  `create_sample` with an offending name fails
with the ValidationError and writes nothing (its single insert follows all
checks); `add_sample_positions_to_db` of one offending template fails with
the ValidationError leaving the store unchanged — but the validation being
inside the insert loop, earlier entries of a batch remain inserted when a
later entry's name fails (see the counterexample). -/
theorem C8_validation_precedes_write (s : LabState) (nm p : String)
    (sid : Option Nat) (parent : Option String) (sp : SamplePosition) :
    (hasBadChar nm = true → create_sample s nm none sid = .error (.badName nm)) ∧
    (hasBadChar nm = true → is_unoccupied_position s p = .ok true →
      create_sample s nm (some p) sid = .error (.badName nm)) ∧
    (hasBadChar sp.name = true → 0 < sp.number →
      ∃ bad, hasBadChar bad = true ∧
        add_sample_positions_to_db s [sp] parent = (s, some (.badName bad))) := by
  refine ⟨?_, ?_, ?_⟩
  · intro hbad; simp [create_sample, createSampleInsert, hbad]
  · intro hbad hunocc
    simp [create_sample, hunocc, createSampleInsert, hbad]
  · intro hbad hnum
    obtain ⟨n, hn⟩ : ∃ n, sp.number = n + 1 :=
      ⟨sp.number - 1, (Nat.succ_pred_eq_of_pos hnum).symm⟩
    refine ⟨positionEntryName parent sp 0, positionEntryName_bad parent sp 0 hbad, ?_⟩
    rw [add_sample_positions_to_db, generatedNames]
    simp only [List.flatMap_cons, List.flatMap_nil, List.append_nil, hn,
               List.range_succ_eq_map, List.map_cons]
    rw [addNamesLoop]
    simp only [addOnePositionName, positionEntryName_bad parent sp 0 hbad, if_true]

/-- C8 counterexample: a batch whose first template is valid and whose second
carries a reserved character fails with the ValidationError, yet the
positions collection has gained the first document — the claimed
no-write-before-failure guarantee does not hold for batch creation. -/
theorem C8_counterexample :
    add_sample_positions_to_db stEmpty
        [{ name := "good", number := 1 }, { name := "bad$", number := 1 }] none
      = ({ positions := [{ name := "good", task_id := none, parent_device := none }],
           samples := [] },
         some (.badName "bad$")) := by decide

/-- C8 witness: the single-template branch of the amended theorem at the
empty store. -/
theorem C8_witness :
    ∃ bad, hasBadChar bad = true ∧
      add_sample_positions_to_db stEmpty [{ name := "bad$", number := 1 }] none
        = (stEmpty, some (.badName bad)) :=
  (C8_validation_precedes_write stEmpty "x" "y" none none
    { name := "bad$", number := 1 }).2.2 (by decide) (by decide)

/-! Claim C9 -/

/-- C9: a prefix matching no stored position makes the candidate query raise
(rather than return an empty list), and therefore a reserve for that prefix
raises inside the locked section even when the requested count is 0 —
instead of returning an empty grant or `None`. -/
theorem C9_zero_match_raises (s : LabState) (t : Nat) (pfx : String)
    (h : ∀ pd ∈ s.positions, strStartsWith pd.name pfx = false) :
    get_available_sample_position s t pfx = .error (.cannotFindPrefix pfx) ∧
    request_sample_positions s t [{ pfx := pfx, number := 0 }]
      = .error (.cannotFindPrefix pfx) := by
  have hfind : s.positions.find? (fun pd => strStartsWith pd.name pfx) = none := by
    rw [List.find?_eq_none]
    intro pd hpd
    simp [h pd hpd]
  have havail : get_available_sample_position s t pfx = .error (.cannotFindPrefix pfx) := by
    rw [get_available_sample_position, if_pos (by rw [hfind]; rfl)]
  refine ⟨havail, ?_⟩
  have hcount : countMatches s pfx = 0 := by
    rw [countMatches, List.length_eq_zero, List.filter_eq_nil_iff]
    intro pd hpd
    simp [h pd hpd]
  rw [request_sample_positions, if_neg (by simp)]
  rw [show checkCapacity s [{ pfx := pfx, number := 0 }] = none by
        simp [checkCapacity, hcount]]
  simp only [lockedSelection, havail]

/-- C9 witness: the concrete store with one position `x/1` and the prefix
`zzz`. -/
theorem C9_witness :
    request_sample_positions stC9 1 [{ pfx := "zzz", number := 0 }]
      = .error (.cannotFindPrefix "zzz") :=
  (C9_zero_match_raises stC9 1 "zzz" (by intro pd hpd; fin_cases hpd; decide)).2

/-! Claim C10 -/

/-- C10: `create_sample` onto an existing position that no sample references
succeeds whatever the position's owner field holds (LOCKED by the caller, by
another task, or EMPTY), inserting the sample with `task_id = none`; an
unknown position raises NotFound and an occupied one raises the occupancy
error. -/
theorem C10_create_ignores_lock (s : LabState) (p nm : String) (sid : Option Nat) :
    ((get_sample_position s p).isSome = true →
      s.samples.find? (fun q => q.position == some p) = none →
      hasBadChar nm = false →
      create_sample s nm (some p) sid
        = .ok (newSampleId s sid,
            { s with samples := s.samples ++
                [{ id := newSampleId s sid, name := nm, position := some p,
                   task_id := none }] })) ∧
    (get_sample_position s p = none →
      create_sample s nm (some p) sid = .error (.invalidPosition p)) ∧
    (∀ sm, (get_sample_position s p).isSome = true →
      s.samples.find? (fun q => q.position == some p) = some sm →
      create_sample s nm (some p) sid = .error (.positionNotEmpty p)) := by
  refine ⟨?_, ?_, ?_⟩
  · intro hpos hsm hnm
    obtain ⟨pd, hpd⟩ := Option.isSome_iff_exists.mp hpos
    have hunocc : is_unoccupied_position s p = .ok true := by
      rw [is_unoccupied_position, get_sample_position_status, hpd, hsm]
      by_cases h : pd.task_id ≠ none <;> simp [h]
    simp [create_sample, hunocc, createSampleInsert, hnm]
  · intro hpd
    simp [create_sample, is_unoccupied_position, get_sample_position_status, hpd]
  · intro sm hpos hsm
    obtain ⟨pd, hpd⟩ := Option.isSome_iff_exists.mp hpos
    simp [create_sample, is_unoccupied_position, get_sample_position_status, hpd, hsm]

/-- C10 witness: creating a sample on a position locked by task 99 succeeds
and the created sample carries no owning task. -/
theorem C10_witness :
    create_sample stC10 "mysample" (some "slot") none
      = .ok (newSampleId stC10 none,
          { stC10 with samples := stC10.samples ++
              [{ id := newSampleId stC10 none, name := "mysample",
                 position := some "slot", task_id := none }] }) :=
  (C10_create_ignores_lock stC10 "slot" "mysample" none).1 (by decide) (by decide) (by decide)
